import Mathlib

/-!
Shallow embedding of the scrapix image-scraping core (src/scrapix/scraper.py and
src/scrapix/urls.py), together with theorems settling the specification claims
about it.

Modelling conventions:
* Python `str` is Lean `String`; `str.lower()` is a character-wise `Char.toLower`
  map over the string's characters; Python's substring test `a in b` is `strIn`.
* Python `set` values of `ImageUrl`s are `Finset ImageUrl` when a claim is about
  set equality (the persisted store), and `List ImageUrl` with the set-semantics
  insertion `setAdd` (adding a member is a no-op) for the session accumulator,
  so that absence of duplicates is a provable property rather than a type fact.
* The browser page is abstracted: each outer-loop pass `p` observes the
  placeholder list `pages p`; clicking a thumbnail either fails (exception,
  caught by the code), reveals no extractable image, or yields a candidate
  `ImageUrl`.  The HTTP fetch performed by `ImageUrl.check_dimensions` is
  abstracted by an oracle `fetchOf : ImageUrl → Fetch`.
* Python exceptions that the code does not catch are the `.error` case of
  `Except`; the unbounded `while` loop is modelled with explicit fuel, the
  value `.ok none` meaning "the loop is still running after that much fuel".
-/

/-- Character-wise lowercasing of a string, the model of Python `str.lower()`. -/
def lowerChars (s : String) : List Char := s.data.map Char.toLower

/-- Boolean contiguous-sublist test: `hasInfix n h` is true iff `n` occurs as a
contiguous run inside `h`. -/
def hasInfix (needle : List Char) : List Char → Bool
  | [] => needle.isPrefixOf []
  | c :: t => needle.isPrefixOf (c :: t) || hasInfix needle t

/-- Model of Python `needle.lower() in hay.lower()`. -/
def strIn (needle hay : String) : Bool := hasInfix (lowerChars needle) (lowerChars hay)

/-- The `ImageUrl` frozen dataclass of src/scrapix/urls.py: a title/url pair with
structural equality and hashing.  Both fields are `Option` because at runtime
either may be `None` (`title` is typed `str | None`; `url` is typed `str` but
`_validate_image_url` still guards `url.url is None`). -/
structure ImageUrl where
  title : Option String
  url : Option String
deriving DecidableEq

/-- A record of the persisted urls file: one JSON object with keys `title` and
`url`, each a string or null.  `dataclasses.asdict` produces exactly these two
keys. -/
structure UrlRec where
  title : Option String
  url : Option String
deriving DecidableEq

/-- Model of `dataclasses.asdict` on an `ImageUrl`. -/
def asdictIU (u : ImageUrl) : UrlRec := ⟨u.title, u.url⟩

/-- Model of `ImageUrl.from_dict` (src/scrapix/urls.py): rebuild an `ImageUrl`
from a record's fields (keys outside the constructor signature are dropped by
the comprehension; a record carries exactly the constructor's fields here). -/
def ImageUrl.from_dict (r : UrlRec) : ImageUrl := ⟨r.title, r.url⟩

/-- Model of `read_urls` (src/scrapix/urls.py): parse the persisted record list
and collect the rebuilt `ImageUrl`s into a set. -/
def read_urls (recs : List UrlRec) : Finset ImageUrl :=
  (recs.map ImageUrl.from_dict).toFinset

/-- Model of `write_urls` (src/scrapix/urls.py): serialize the set of
`ImageUrl`s as a list of records; the argument list is the set's iteration
order, which Python does not fix, so theorems quantify over it. -/
def write_urls (urls : List ImageUrl) : List UrlRec := urls.map asdictIU

/-- Outcome of the HTTP fetch + `PIL.Image.open` performed by
`ImageUrl.check_dimensions`:
* `err`: `requests.get`/`raise_for_status` fails or the payload does not decode
  as an image — Python raises;
* `sizeNone`: the image opens but reports no size (`image.size is None`);
* `size w h`: the image opens with pixel width `w` and height `h`. -/
inductive Fetch where
  | err
  | sizeNone
  | size (w h : Nat)
deriving DecidableEq

/-- Model of `ImageUrl.check_dimensions` (src/scrapix/urls.py, lines 76-107),
with the network interaction abstracted into the `Fetch` outcome for this url.
A fetch or decode failure is an uncaught exception (`.error`). -/
def check_dimensions (fetch : Fetch)
    (min_resolution max_resolution : Option (Nat × Nat)) : Except Unit Bool :=
  match fetch with
  | .err => .error ()
  | .sizeNone => .ok true
  | .size w h =>
    if (match min_resolution with
        | some mr => decide (mr.1 > w) || decide (mr.2 > h)
        | none => false) then .ok false
    else if (match max_resolution with
        | some mr => decide (mr.1 < w) || decide (mr.2 < h)
        | none => false) then .ok false
    else .ok true

/-- Model of `GoogleImageScraper._validate_image_url` (src/scrapix/scraper.py,
lines 254-286).  The match on `url.title, url.url` is the code's guard
`if url.title is None or url.url is None or url in self.urls: return False`,
split so the present title `t` and url string `u` are in scope; `self_urls` is
the scraper's loaded store `self.urls`; `fetchOf` abstracts the network fetch
of `check_dimensions`. -/
def _validate_image_url (fetchOf : ImageUrl → Fetch) (self_urls : Finset ImageUrl)
    (url : ImageUrl) (keywords : List String)
    (min_res max_res : Option (Nat × Nat)) : Except Unit Bool :=
  match url.title, url.url with
  | some t, some u =>
    if url ∈ self_urls then .ok false
    else if keywords.any fun kw => strIn kw u || strIn kw t then .ok false
    else if min_res.isSome || max_res.isSome then
      check_dimensions (fetchOf url) min_res max_res
    else .ok true
  | _, _ => .ok false

/-- What happens when the crawl loop processes one thumbnail placeholder:
* `clickFail`: the click raises (timeout, staleness) — caught, placeholder
  skipped;
* `noImage`: the click succeeds but `_extract_image_url` finds no image tag
  with an `http` non-`encrypted` source;
* `image u`: `_extract_image_url` yields the candidate `u`. -/
inductive Thumb where
  | clickFail
  | noImage
  | image (u : ImageUrl)
deriving DecidableEq

/-- Python `set.add` on a set represented by the list of its elements: adding a
member is a no-op. -/
def setAdd (u : ImageUrl) (l : List ImageUrl) : List ImageUrl :=
  if u ∈ l then l else l ++ [u]

/-- Model of `GoogleImageScraper._scroll_through_thumbnails`
(src/scrapix/scraper.py, lines 310-360): click each thumbnail of the slice in
order, skipping click failures and failed extractions/validations, adding each
accepted candidate to `urls` and stopping as soon as `len(urls) >= limit`.
An exception raised by validation (dimension fetch) propagates. -/
def _scroll_through_thumbnails (fetchOf : ImageUrl → Fetch)
    (self_urls : Finset ImageUrl) :
    List Thumb → Nat → List ImageUrl → List String →
    Option (Nat × Nat) → Option (Nat × Nat) → Except Unit (List ImageUrl)
  | [], _, urls, _, _, _ => .ok urls
  | thumbnail :: rest, limit, urls, keywords, min_res, max_res =>
    match thumbnail with
    | .clickFail =>
      _scroll_through_thumbnails fetchOf self_urls rest limit urls keywords min_res max_res
    | .noImage =>
      _scroll_through_thumbnails fetchOf self_urls rest limit urls keywords min_res max_res
    | .image url =>
      match _validate_image_url fetchOf self_urls url keywords min_res max_res with
      | .error e => .error e
      | .ok false =>
        _scroll_through_thumbnails fetchOf self_urls rest limit urls keywords min_res max_res
      | .ok true =>
        let urls2 := setAdd url urls
        if urls2.length ≥ limit then .ok urls2
        else _scroll_through_thumbnails fetchOf self_urls rest limit urls2 keywords min_res max_res

/-- One state of the `while` loop of `_gather_urls` (src/scrapix/scraper.py,
lines 393-428), stepped with explicit fuel: `pass` indexes which placeholder
list the page presents (`pages pass`), `urls`/`seen_thumbnails`/`new_results`
are the loop variables.  `.ok none` means the loop is still running when the
fuel runs out.  `thumbnails.isEmpty` in the skip branch is the Python
`thumbnails[-1]` indexing of an empty list, an uncaught `IndexError`. -/
def gatherLoop (fetchOf : ImageUrl → Fetch) (self_urls : Finset ImageUrl)
    (pages : Nat → List Thumb) (limit skip : Nat) (keywords : List String)
    (min_res max_res : Option (Nat × Nat)) :
    Nat → Nat → List ImageUrl → Nat → Bool → Except Unit (Option (List ImageUrl))
  | 0, _, _, _, _ => .ok none
  | fuel + 1, pass, urls, seen_thumbnails, new_results =>
    if urls.length < limit ∧ new_results = true then
      let thumbnails := pages pass
      let new_results2 : Bool :=
        decide ((thumbnails.length : Int) - (seen_thumbnails : Int) > 0)
      if skip > 0 ∧ skip > thumbnails.length then
        if thumbnails.isEmpty then .error ()
        else
          gatherLoop fetchOf self_urls pages limit skip keywords min_res max_res
            fuel (pass + 1) urls thumbnails.length new_results2
      else
        match _scroll_through_thumbnails fetchOf self_urls
            (thumbnails.drop (max seen_thumbnails skip)) limit urls keywords
            min_res max_res with
        | .error e => .error e
        | .ok urls2 =>
          gatherLoop fetchOf self_urls pages limit skip keywords min_res max_res
            fuel (pass + 1) urls2 thumbnails.length new_results2
    else .ok (some urls)

/-- Model of `GoogleImageScraper._gather_urls` (src/scrapix/scraper.py, lines
362-431): run the pagination loop from the initial state
`urls = set(), seen_thumbnails = 0, new_results = True`. -/
def _gather_urls (fetchOf : ImageUrl → Fetch) (self_urls : Finset ImageUrl)
    (pages : Nat → List Thumb) (fuel limit skip : Nat) (keywords : List String)
    (min_res max_res : Option (Nat × Nat)) : Except Unit (Option (List ImageUrl)) :=
  gatherLoop fetchOf self_urls pages limit skip keywords min_res max_res fuel 0 [] 0 true

/-- Model of `GoogleImageScraper._load_urls` (src/scrapix/scraper.py, lines
65-70): the urls file is `some recs` when it exists and is a file (its parsed
record list), `none` when absent. -/
def _load_urls (file : Option (List UrlRec)) (force : Bool) : Finset ImageUrl :=
  match file with
  | some recs => if force then ∅ else read_urls recs
  | none => ∅

/-- Terminal errors of a scraping session. -/
inductive ScrapeErr where
  | recaptchaDetected
  | elementNotFound
  | gatherError
deriving DecidableEq

/-- Page-level behaviour of one session: whether the landing page shows a
ReCaptcha, whether the `Images` link is present, what placeholder list each
pass observes, and the dimension-fetch oracle. -/
structure PageEnv where
  hasRecaptcha : Bool
  hasImagesLink : Bool
  pages : Nat → List Thumb
  fetchOf : ImageUrl → Fetch

/-- Model of `GoogleImageScraper.get_image_urls` (src/scrapix/scraper.py, lines
433-483).  The first component is what the call returns to the caller (or the
exception it re-raises); the second records the single `_save_urls` write: the
set written to the urls file, or `none` when no write happened.  The code
merges (`self.urls |= urls`) and saves only after `_gather_urls` returns; the
`except` clause only logs the page and re-raises. -/
def get_image_urls (env : PageEnv) (self_urls : Finset ImageUrl)
    (fuel limit skip : Nat) (keywords : List String)
    (min_res max_res : Option (Nat × Nat)) :
    Except ScrapeErr (Option (List ImageUrl)) × Option (Finset ImageUrl) :=
  if env.hasRecaptcha then (.error .recaptchaDetected, none)
  else if env.hasImagesLink = false then (.error .elementNotFound, none)
  else
    match _gather_urls env.fetchOf self_urls env.pages fuel limit skip keywords
        min_res max_res with
    | .error _ => (.error .gatherError, none)
    | .ok none => (.ok none, none)
    | .ok (some urls) => (.ok (some urls), some (self_urls ∪ urls.toFinset))

/-- Errors of one image download. -/
inductive DlErr where
  | http
  | io
deriving DecidableEq

/-- Outcome of actually fetching and writing one image to disk. -/
inductive DlOutcome where
  | ok
  | httpErr
  | ioErr
deriving DecidableEq

/-- Model of `ImageUrl.download` (src/scrapix/urls.py, lines 109-127):
`onDisk` is whether the target filename already exists; when it does and
`force` is false the download is a no-op; otherwise the HTTP fetch and the
file write may each fail, and the exception propagates. -/
def ImageUrl.download (outcome : DlOutcome) (onDisk force : Bool) : Except DlErr Unit :=
  if onDisk = true ∧ force = false then .ok ()
  else
    match outcome with
    | .ok => .ok ()
    | .httpErr => .error .http
    | .ioErr => .error .io

/-- Model of `download_urls` (src/scrapix/urls.py, lines 162-165): iterate the
batch in order calling `ImageUrl.download`.  Returns the list of items whose
download was entered (in order) and, when a download raised, the error that
propagated out of the loop (`none` when the whole batch was iterated). -/
def download_urls (outcomeOf : ImageUrl → DlOutcome) (onDiskOf : ImageUrl → Bool)
    (force : Bool) : List ImageUrl → List ImageUrl × Option DlErr
  | [] => ([], none)
  | u :: rest =>
    match ImageUrl.download (outcomeOf u) (onDiskOf u) force with
    | .error e => ([u], some e)
    | .ok _ =>
      let r := download_urls outcomeOf onDiskOf force rest
      (u :: r.1, r.2)

/-! ## Shared concrete values used by witnesses and counterexamples -/

/-- A candidate whose title contains the keyword `toy`. -/
def cuToy : ImageUrl := ⟨some "duck toy", some "http://a"⟩

/-- A keyword-free candidate. -/
def cuWild : ImageUrl := ⟨some "wild duck", some "http://b"⟩

/-- A candidate already present in the loaded store. -/
def cuKnown : ImageUrl := ⟨some "x", some "http://known"⟩

/-- A candidate whose dimension fetch succeeds. -/
def cuOk : ImageUrl := ⟨some "t1", some "http://ok"⟩

/-- Dimension-fetch oracle that always fails. -/
def fetchErr : ImageUrl → Fetch := fun _ => Fetch.err

/-- Dimension-fetch oracle succeeding with a 5x5 image on `cuOk` and failing
elsewhere. -/
def fetchOkOn : ImageUrl → Fetch :=
  fun u => if u.url = some "http://ok" then Fetch.size 5 5 else Fetch.err

/-- Modelled from the spec's words (§4.1 rule 4), for comparison with the
code's `check_dimensions`: accept exactly when
`min_res.width <= w <= max_res.width` and `min_res.height <= h <= max_res.height`
for each bound actually supplied; an unsupplied bound imposes no constraint. -/
def specResolutionOk (min_res max_res : Option (Nat × Nat)) (w h : Nat) : Bool :=
  (match min_res with
   | some mr => decide (mr.1 ≤ w ∧ mr.2 ≤ h)
   | none => true) &&
  (match max_res with
   | some mr => decide (w ≤ mr.1 ∧ h ≤ mr.2)
   | none => true)

/-- Concrete download items for the C9 counterexample and witness. -/
def cd0 : ImageUrl := ⟨some "w", some "http://0"⟩

def cd1 : ImageUrl := ⟨some "x", some "http://1"⟩

def cd2 : ImageUrl := ⟨some "y", some "http://2"⟩

/-- Download oracle for C9: the HTTP fetch of `cd1` fails, everything else
succeeds. -/
def dlFailOn1 : ImageUrl → DlOutcome :=
  fun u => if u = cd1 then DlOutcome.httpErr else DlOutcome.ok

/-- Page behaviour for the C6 counterexample: no challenge, images link
present; the first pass shows two thumbnails, the first extracting `cuOk`
(whose dimension fetch succeeds at 5x5) and the second extracting `cuWild`
(whose dimension fetch raises). -/
def envGatherFail : PageEnv :=
  ⟨false, true, fun _ => [Thumb.image cuOk, Thumb.image cuWild], fetchOkOn⟩

/-- Page behaviour for successful-session witnesses: one pass with a single
thumbnail extracting `cuOk`, whose dimension fetch succeeds. -/
def envOk : PageEnv := ⟨false, true, fun _ => [Thumb.image cuOk], fetchOkOn⟩

/-- A persisted record list holding the single record of `cuKnown`. -/
def fileKnown : List UrlRec := [⟨some "x", some "http://known"⟩]

/-- Page behaviour for the C10 witness: the page re-offers the known `cuKnown`
and the fresh `cuWild`. -/
def envKnownWild : PageEnv :=
  ⟨false, true, fun _ => [Thumb.image cuKnown, Thumb.image cuWild], fetchErr⟩

/-- First-pass placeholders for the C2 witness. -/
def pagesW : Nat → List Thumb := fun _ => [Thumb.image cuToy, Thumb.image cuWild]

/-- The same page with its first placeholder replaced. -/
def pagesW2 : Nat → List Thumb := fun _ => [Thumb.clickFail, Thumb.image cuWild]

/-! ## Helper lemmas -/

theorem validate_true_not_mem {fetchOf : ImageUrl → Fetch} {S : Finset ImageUrl}
    {url : ImageUrl} {keywords : List String} {mn mx : Option (Nat × Nat)}
    (h : _validate_image_url fetchOf S url keywords mn mx = .ok true) :
    url ∉ S := by
  unfold _validate_image_url at h
  rcases ht : url.title with _ | t <;> rcases hu : url.url with _ | u <;>
      rw [ht, hu] at h <;> simp at h
  intro hmem
  rw [if_pos hmem] at h
  simp at h

theorem setAdd_length (u : ImageUrl) (l : List ImageUrl) :
    (setAdd u l).length ≤ l.length + 1 := by
  unfold setAdd; split <;> simp

theorem setAdd_nodup {u : ImageUrl} {l : List ImageUrl} (h : l.Nodup) :
    (setAdd u l).Nodup := by
  unfold setAdd
  split
  · exact h
  · next hnot => simp [List.nodup_append, h, hnot]

theorem setAdd_mem {v u : ImageUrl} {l : List ImageUrl}
    (h : v ∈ setAdd u l) : v ∈ l ∨ v = u := by
  unfold setAdd at h
  split at h
  · exact Or.inl h
  · rcases List.mem_append.mp h with h' | h'
    · exact Or.inl h'
    · simp at h'; exact Or.inr h'

theorem check_dimensions_size (mn mx : Option (Nat × Nat)) (w h : Nat) :
    check_dimensions (.size w h) mn mx =
      .ok ((match mn with
            | some mr => decide (mr.1 ≤ w ∧ mr.2 ≤ h)
            | none => true) &&
           (match mx with
            | some mr => decide (w ≤ mr.1 ∧ h ≤ mr.2)
            | none => true)) := by
  rcases mn with _ | ⟨mw, mh⟩ <;> rcases mx with _ | ⟨xw, xh⟩ <;>
    simp only [check_dimensions] <;> repeat' split
  all_goals simp_all
  all_goals omega

/-! ## Claim theorems -/

/-- C8: for every finite set of `ImageUrl`s (given in any iteration order),
writing it with `write_urls` and reading it back with `read_urls` yields a set
structurally equal to the original — the persistence codec round-trips,
order-independently. -/
theorem claim8_theorem (l : List ImageUrl) :
    read_urls (write_urls l) = l.toFinset := by
  unfold read_urls write_urls
  rw [List.map_map]
  have h : ImageUrl.from_dict ∘ asdictIU = id := rfl
  rw [h, List.map_id]

/-- C4: a candidate with a present title and url for which some excluded
keyword, compared case-insensitively, occurs in the title or in the url is
rejected by `_validate_image_url`, whatever the dimension-fetch oracle — the
resolution check is never consulted (the result is `.ok false` even for an
oracle that would raise). -/
theorem claim4_theorem (fetchOf : ImageUrl → Fetch) (self_urls : Finset ImageUrl)
    (url : ImageUrl) (t u : String) (keywords : List String)
    (min_res max_res : Option (Nat × Nat))
    (ht : url.title = some t) (hu : url.url = some u)
    (hkw : ∃ kw ∈ keywords, strIn kw t = true ∨ strIn kw u = true) :
    _validate_image_url fetchOf self_urls url keywords min_res max_res = .ok false := by
  have hany : (keywords.any fun kw => strIn kw u || strIn kw t) = true := by
    rcases hkw with ⟨kw, hmem, hor⟩
    refine List.any_eq_true.mpr ⟨kw, hmem, ?_⟩
    rcases hor with h | h <;> simp [h]
  by_cases hmem : url ∈ self_urls
  · simp [_validate_image_url, ht, hu, hmem]
  · simp [_validate_image_url, ht, hu, hmem, hany]

/-- Witness for C4 at a concrete input: the keyword `TOY` occurs
case-insensitively in the title `duck toy`, so the candidate is rejected even
though the fetch oracle would raise. -/
theorem claim4_witness :
    _validate_image_url fetchErr ∅ cuToy ["TOY"] (some (1, 1)) none = .ok false :=
  claim4_theorem fetchErr ∅ cuToy "duck toy" "http://a" ["TOY"] (some (1, 1)) none
    rfl rfl ⟨"TOY", by simp, Or.inl (by decide)⟩

/-- C5 counterexample: a candidate passing the presence, novelty and keyword
rules, with a minimum bound supplied and a failing dimension fetch, is not
"treated as passing": `_validate_image_url` raises (the `requests` /
`PIL.Image.open` exception in `check_dimensions` is caught nowhere on the
validation path), contradicting the claim that a fetch or decode failure never
causes validation to fail or abort. -/
theorem claim5_counterexample :
    _validate_image_url fetchErr ∅ cuWild [] (some (1, 1)) none = .error () := rfl

/-- C5 (amended): for a candidate that passes the presence, novelty and keyword
rules, with at least one resolution bound supplied, validation rejects exactly
when the fetched pixel dimensions violate a supplied bound (an unsupplied bound
imposes no constraint), passes when the image opens but reports no size, and
raises — aborting validation — when the fetch or decode fails. -/
theorem claim5_theorem (fetchOf : ImageUrl → Fetch) (self_urls : Finset ImageUrl)
    (url : ImageUrl) (t u : String) (keywords : List String)
    (min_res max_res : Option (Nat × Nat))
    (ht : url.title = some t) (hu : url.url = some u)
    (hmem : url ∉ self_urls)
    (hkw : (keywords.any fun kw => strIn kw u || strIn kw t) = false)
    (hres : (min_res.isSome || max_res.isSome) = true) :
    _validate_image_url fetchOf self_urls url keywords min_res max_res =
      match fetchOf url with
      | .err => .error ()
      | .sizeNone => .ok true
      | .size w h => .ok (specResolutionOk min_res max_res w h) := by
  have hv : _validate_image_url fetchOf self_urls url keywords min_res max_res =
      check_dimensions (fetchOf url) min_res max_res := by
    simp [_validate_image_url, ht, hu, hmem, hkw, hres]
  rw [hv]
  rcases hf : fetchOf url with _ | _ | ⟨w, h⟩
  · rfl
  · rfl
  · rw [check_dimensions_size]
    rfl

/-- Witness for C5 (amended) at a concrete input: a successful 5x5 fetch
against bounds min (1,1), max (4,4) — the candidate is rejected because the
width exceeds the supplied maximum. -/
theorem claim5_witness :
    _validate_image_url (fun _ => Fetch.size 5 5) ∅ cuWild [] (some (1, 1))
      (some (4, 4)) = .ok false :=
  claim5_theorem (fun _ => Fetch.size 5 5) ∅ cuWild "wild duck" "http://b" []
    (some (1, 1)) (some (4, 4)) rfl rfl (by decide) rfl rfl
/-- C9 counterexample: in a batch of two items whose downloads both fail (HTTP
error), the failure of the first aborts the batch — the loop body of
`download_urls` has no per-item exception handling, so the error propagates
(`some .http`) and the second item is never attempted (it is absent from the
list of entered downloads), contradicting the claim that every remaining item
is still attempted and failures are reported per item. -/
theorem claim9_counterexample :
    download_urls (fun _ => DlOutcome.httpErr) (fun _ => false) false [cd1, cd2] =
        ([cd1], some DlErr.http) ∧
      cd2 ∉ [cd1] := by
  constructor
  · rfl
  · decide

/-- C9 (amended): a failure while downloading one item does abort the batch:
if every item before `u` downloads successfully and `u`'s download raises `e`,
the loop enters exactly the downloads of the prefix and of `u`, the items after
`u` are never attempted, and `e` propagates out of the loop. -/
theorem claim9_theorem (outcomeOf : ImageUrl → DlOutcome) (onDiskOf : ImageUrl → Bool)
    (force : Bool) (pre post : List ImageUrl) (u : ImageUrl) (e : DlErr)
    (hpre : ∀ v ∈ pre, ImageUrl.download (outcomeOf v) (onDiskOf v) force = .ok ())
    (hu : ImageUrl.download (outcomeOf u) (onDiskOf u) force = .error e) :
    download_urls outcomeOf onDiskOf force (pre ++ u :: post) = (pre ++ [u], some e) := by
  induction pre with
  | nil => simp [download_urls, hu]
  | cons v vs ih =>
    have hv := hpre v (by simp)
    have ih' := ih fun w hw => hpre w (by simp [hw])
    simp only [List.cons_append, download_urls, hv]
    rw [show vs.append (u :: post) = vs ++ u :: post from rfl, ih']

/-- Witness for C9 (amended) at a concrete input: `cd0` downloads fine, `cd1`
fails with an HTTP error, so the batch `[cd0, cd1, cd2]` stops after `cd1` and
the error propagates; `cd2` is never attempted. -/
theorem claim9_witness :
    download_urls dlFailOn1 (fun _ => false) false ([cd0] ++ cd1 :: [cd2]) =
      ([cd0] ++ [cd1], some DlErr.http) :=
  claim9_theorem dlFailOn1 (fun _ => false) false [cd0] [cd2] cd1 DlErr.http
    (by intro v hv; simp at hv; subst hv; rfl) rfl

theorem get_fst_ok {env : PageEnv} {S : Finset ImageUrl} {fuel limit skip : Nat}
    {keywords : List String} {mn mx : Option (Nat × Nat)} {urls : List ImageUrl}
    (h : (get_image_urls env S fuel limit skip keywords mn mx).1 = .ok (some urls)) :
    _gather_urls env.fetchOf S env.pages fuel limit skip keywords mn mx
        = .ok (some urls) ∧
      (get_image_urls env S fuel limit skip keywords mn mx).2
        = some (S ∪ urls.toFinset) := by
  unfold get_image_urls at h ⊢
  split at h
  · simp at h
  · split at h
    · simp at h
    · rcases hg : _gather_urls env.fetchOf S env.pages fuel limit skip keywords mn mx
          with _ | ⟨_ | us⟩ <;> rw [hg] at h <;> simp_all
/-- C6 counterexample: with a minimum resolution supplied, the session of
`envGatherFail` accepts `cuOk` and then fails harvesting on `cuWild`'s
dimension fetch.  At `limit = 1` the session already succeeds returning
`[cuOk]` (first conjunct: `cuOk` really is gathered before the failure point),
but at `limit = 5` the error aborts `get_image_urls` with nothing written to
the urls file (second conjunct: the saved-set component is `none` — the merge
and `_save_urls` calls sit in the `try` block after `_gather_urls`, and the
`except` clause only logs and re-raises).  The partial result `cuOk` is
discarded, contradicting the claim. -/
theorem claim6_counterexample :
    (get_image_urls envGatherFail ∅ 3 1 0 [] (some (1, 1)) none).1
        = .ok (some [cuOk]) ∧
      get_image_urls envGatherFail ∅ 3 5 0 [] (some (1, 1)) none
        = (.error .gatherError, none) := by
  constructor
  · rfl
  · rfl

/-- C6 (amended): when a session fails with a fatal error — challenge
detected, images-view control missing, or any error raised during harvesting —
the error is raised to the caller and nothing is written to the urls file: the
Results gathered before the failure are discarded, and the file keeps whatever
content it had before the session. -/
theorem claim6_theorem (env : PageEnv) (S : Finset ImageUrl)
    (fuel limit skip : Nat) (keywords : List String) (mn mx : Option (Nat × Nat))
    (e : ScrapeErr)
    (h : (get_image_urls env S fuel limit skip keywords mn mx).1 = .error e) :
    (get_image_urls env S fuel limit skip keywords mn mx).2 = none := by
  unfold get_image_urls at h ⊢
  by_cases hr : env.hasRecaptcha = true
  · simp [hr]
  by_cases hl : env.hasImagesLink = false
  · simp [hr, hl]
  rw [if_neg hr, if_neg hl] at h ⊢
  rcases hg : _gather_urls env.fetchOf S env.pages fuel limit skip keywords mn mx
      with _ | ⟨_ | us⟩ <;> simp_all

/-- Witness for C6 (amended) at a concrete input: the failing session of
`envGatherFail` writes nothing. -/
theorem claim6_witness :
    (get_image_urls envGatherFail ∅ 3 5 0 [] (some (1, 1)) none).2 = none :=
  claim6_theorem envGatherFail ∅ 3 5 0 [] (some (1, 1)) none .gatherError rfl

/-- C7 counterexample: a urls file that is present (not absent) and parses to
an empty record list, with `force = false`, still loads to the empty set — so
the loaded set being empty is not equivalent to "force is true or the urls
file is absent", refuting the "exactly when" part of the claim. -/
theorem claim7_counterexample :
    _load_urls (some []) false = ∅ ∧
      ¬(false = true ∨ (some ([] : List UrlRec)) = none) := by
  constructor
  · rfl
  · simp
/-- C7 (amended): at the end of a successful session the persisted set equals
the union of the set loaded at construction and the newly harvested set, so no
loaded entry is ever removed by the save; when `force` is true the loaded set
is empty and the persisted set is exactly the harvested one, and the loaded
set is also empty when the urls file is absent (though not only then: a
present file parsing to an empty list also loads as empty). -/
theorem claim7_theorem (file : Option (List UrlRec)) (force : Bool) (env : PageEnv)
    (fuel limit skip : Nat) (keywords : List String) (mn mx : Option (Nat × Nat))
    (urls : List ImageUrl)
    (h : (get_image_urls env (_load_urls file force) fuel limit skip keywords mn mx).1
          = .ok (some urls)) :
    (get_image_urls env (_load_urls file force) fuel limit skip keywords mn mx).2
        = some (_load_urls file force ∪ urls.toFinset) ∧
      _load_urls file force ⊆ _load_urls file force ∪ urls.toFinset ∧
      (force = true →
        (get_image_urls env (_load_urls file force) fuel limit skip keywords mn mx).2
          = some urls.toFinset) ∧
      (file = none → _load_urls file force = ∅) := by
  obtain ⟨-, hsave⟩ := get_fst_ok h
  refine ⟨hsave, Finset.subset_union_left, ?_, ?_⟩
  · intro hf; subst hf
    have hempty : _load_urls file true = ∅ := by
      rcases file with _ | recs <;> simp [_load_urls]
    rw [hsave, hempty, Finset.empty_union]
  · intro hf; subst hf; rfl

/-- Witness for C7 (amended) at a concrete input: a store loaded from a file
holding `cuKnown`, a session harvesting exactly `[cuOk]`; the saved set is the
union and the loaded entry survives the save. -/
theorem claim7_witness :
    (get_image_urls envOk (_load_urls (some fileKnown) false) 3 1 0 [] none none).2
        = some (_load_urls (some fileKnown) false ∪ [cuOk].toFinset) ∧
      _load_urls (some fileKnown) false
        ⊆ _load_urls (some fileKnown) false ∪ [cuOk].toFinset :=
  let h := claim7_theorem (some fileKnown) false envOk 3 1 0 [] none none [cuOk] rfl
  ⟨h.1, h.2.1⟩

theorem scroll_length_le (fetchOf : ImageUrl → Fetch) (S : Finset ImageUrl)
    (limit : Nat) (keywords : List String) (mn mx : Option (Nat × Nat)) :
    ∀ (thumbs : List Thumb) (urls r : List ImageUrl),
      urls.length < limit →
      _scroll_through_thumbnails fetchOf S thumbs limit urls keywords mn mx = .ok r →
      r.length ≤ limit := by
  intro thumbs
  induction thumbs with
  | nil =>
    intro urls r hlt h
    simp only [_scroll_through_thumbnails, Except.ok.injEq] at h
    subst h
    omega
  | cons t rest ih =>
    intro urls r hlt h
    cases t with
    | clickFail =>
      simp only [_scroll_through_thumbnails] at h
      exact ih urls r hlt h
    | noImage =>
      simp only [_scroll_through_thumbnails] at h
      exact ih urls r hlt h
    | image u =>
      simp only [_scroll_through_thumbnails] at h
      rcases hv : _validate_image_url fetchOf S u keywords mn mx with e | b
      · rw [hv] at h; simp at h
      · rw [hv] at h
        cases b
        · exact ih urls r hlt h
        · simp only at h
          by_cases hge : (setAdd u urls).length ≥ limit
          · rw [if_pos hge] at h
            have hlen := setAdd_length u urls
            simp only [Except.ok.injEq] at h
            subst h
            omega
          · rw [if_neg hge] at h
            exact ih _ r (by omega) h

theorem scroll_mem_of_ok (fetchOf : ImageUrl → Fetch) (S : Finset ImageUrl)
    (limit : Nat) (keywords : List String) (mn mx : Option (Nat × Nat)) :
    ∀ (thumbs : List Thumb) (urls r : List ImageUrl),
      _scroll_through_thumbnails fetchOf S thumbs limit urls keywords mn mx = .ok r →
      ∀ u ∈ r, u ∈ urls ∨
        _validate_image_url fetchOf S u keywords mn mx = .ok true := by
  intro thumbs
  induction thumbs with
  | nil =>
    intro urls r h u hu
    simp only [_scroll_through_thumbnails, Except.ok.injEq] at h
    subst h
    exact Or.inl hu
  | cons t rest ih =>
    intro urls r h u hu
    cases t with
    | clickFail =>
      simp only [_scroll_through_thumbnails] at h
      exact ih urls r h u hu
    | noImage =>
      simp only [_scroll_through_thumbnails] at h
      exact ih urls r h u hu
    | image v =>
      simp only [_scroll_through_thumbnails] at h
      rcases hv : _validate_image_url fetchOf S v keywords mn mx with e | b
      · rw [hv] at h; simp at h
      · rw [hv] at h
        cases b
        · exact ih urls r h u hu
        · simp only at h
          by_cases hge : (setAdd v urls).length ≥ limit
          · rw [if_pos hge] at h
            simp only [Except.ok.injEq] at h
            subst h
            rcases setAdd_mem hu with h' | h'
            · exact Or.inl h'
            · subst h'; exact Or.inr hv
          · rw [if_neg hge] at h
            rcases ih _ r h u hu with h' | h'
            · rcases setAdd_mem h' with h'' | h''
              · exact Or.inl h''
              · subst h''; exact Or.inr hv
            · exact Or.inr h'

theorem scroll_nodup (fetchOf : ImageUrl → Fetch) (S : Finset ImageUrl)
    (limit : Nat) (keywords : List String) (mn mx : Option (Nat × Nat)) :
    ∀ (thumbs : List Thumb) (urls r : List ImageUrl),
      urls.Nodup →
      _scroll_through_thumbnails fetchOf S thumbs limit urls keywords mn mx = .ok r →
      r.Nodup := by
  intro thumbs
  induction thumbs with
  | nil =>
    intro urls r hnd h
    simp only [_scroll_through_thumbnails, Except.ok.injEq] at h
    subst h
    exact hnd
  | cons t rest ih =>
    intro urls r hnd h
    cases t with
    | clickFail =>
      simp only [_scroll_through_thumbnails] at h
      exact ih urls r hnd h
    | noImage =>
      simp only [_scroll_through_thumbnails] at h
      exact ih urls r hnd h
    | image v =>
      simp only [_scroll_through_thumbnails] at h
      rcases hv : _validate_image_url fetchOf S v keywords mn mx with e | b
      · rw [hv] at h; simp at h
      · rw [hv] at h
        cases b
        · exact ih urls r hnd h
        · simp only at h
          by_cases hge : (setAdd v urls).length ≥ limit
          · rw [if_pos hge] at h
            simp only [Except.ok.injEq] at h
            subst h
            exact setAdd_nodup hnd
          · rw [if_neg hge] at h
            exact ih _ r (setAdd_nodup hnd) h

theorem loop_length_le (fetchOf : ImageUrl → Fetch) (S : Finset ImageUrl)
    (pages : Nat → List Thumb) (limit skip : Nat) (keywords : List String)
    (mn mx : Option (Nat × Nat)) :
    ∀ (fuel pass : Nat) (urls : List ImageUrl) (seen : Nat) (nr : Bool)
      (r : List ImageUrl),
      urls.length ≤ limit →
      gatherLoop fetchOf S pages limit skip keywords mn mx fuel pass urls seen nr
        = .ok (some r) →
      r.length ≤ limit := by
  intro fuel
  induction fuel with
  | zero =>
    intro pass urls seen nr r hle h
    simp [gatherLoop] at h
  | succ n ih =>
    intro pass urls seen nr r hle h
    simp only [gatherLoop] at h
    by_cases hc : urls.length < limit ∧ nr = true
    · rw [if_pos hc] at h
      by_cases hs : skip > 0 ∧ skip > (pages pass).length
      · rw [if_pos hs] at h
        by_cases he : (pages pass).isEmpty
        · rw [if_pos he] at h; simp at h
        · rw [if_neg he] at h
          exact ih _ urls _ _ r hle h
      · rw [if_neg hs] at h
        rcases hsc : _scroll_through_thumbnails fetchOf S
            ((pages pass).drop (max seen skip)) limit urls keywords mn mx with e | urls2
        · rw [hsc] at h; simp at h
        · rw [hsc] at h
          exact ih _ urls2 _ _ r
            (scroll_length_le fetchOf S limit keywords mn mx _ urls urls2 hc.1 hsc) h
    · rw [if_neg hc] at h
      simp only [Except.ok.injEq, Option.some.injEq] at h
      subst h
      exact hle

theorem loop_mem_of_ok (fetchOf : ImageUrl → Fetch) (S : Finset ImageUrl)
    (pages : Nat → List Thumb) (limit skip : Nat) (keywords : List String)
    (mn mx : Option (Nat × Nat)) :
    ∀ (fuel pass : Nat) (urls : List ImageUrl) (seen : Nat) (nr : Bool)
      (r : List ImageUrl),
      gatherLoop fetchOf S pages limit skip keywords mn mx fuel pass urls seen nr
        = .ok (some r) →
      ∀ u ∈ r, u ∈ urls ∨
        _validate_image_url fetchOf S u keywords mn mx = .ok true := by
  intro fuel
  induction fuel with
  | zero =>
    intro pass urls seen nr r h
    simp [gatherLoop] at h
  | succ n ih =>
    intro pass urls seen nr r h u hu
    simp only [gatherLoop] at h
    by_cases hc : urls.length < limit ∧ nr = true
    · rw [if_pos hc] at h
      by_cases hs : skip > 0 ∧ skip > (pages pass).length
      · rw [if_pos hs] at h
        by_cases he : (pages pass).isEmpty
        · rw [if_pos he] at h; simp at h
        · rw [if_neg he] at h
          exact ih _ urls _ _ r h u hu
      · rw [if_neg hs] at h
        rcases hsc : _scroll_through_thumbnails fetchOf S
            ((pages pass).drop (max seen skip)) limit urls keywords mn mx with e | urls2
        · rw [hsc] at h; simp at h
        · rw [hsc] at h
          rcases ih _ urls2 _ _ r h u hu with h' | h'
          · exact scroll_mem_of_ok fetchOf S limit keywords mn mx _ urls urls2 hsc u h'
          · exact Or.inr h'
    · rw [if_neg hc] at h
      simp only [Except.ok.injEq, Option.some.injEq] at h
      subst h
      exact Or.inl hu

theorem loop_nodup (fetchOf : ImageUrl → Fetch) (S : Finset ImageUrl)
    (pages : Nat → List Thumb) (limit skip : Nat) (keywords : List String)
    (mn mx : Option (Nat × Nat)) :
    ∀ (fuel pass : Nat) (urls : List ImageUrl) (seen : Nat) (nr : Bool)
      (r : List ImageUrl),
      urls.Nodup →
      gatherLoop fetchOf S pages limit skip keywords mn mx fuel pass urls seen nr
        = .ok (some r) →
      r.Nodup := by
  intro fuel
  induction fuel with
  | zero =>
    intro pass urls seen nr r hnd h
    simp [gatherLoop] at h
  | succ n ih =>
    intro pass urls seen nr r hnd h
    simp only [gatherLoop] at h
    by_cases hc : urls.length < limit ∧ nr = true
    · rw [if_pos hc] at h
      by_cases hs : skip > 0 ∧ skip > (pages pass).length
      · rw [if_pos hs] at h
        by_cases he : (pages pass).isEmpty
        · rw [if_pos he] at h; simp at h
        · rw [if_neg he] at h
          exact ih _ urls _ _ r hnd h
      · rw [if_neg hs] at h
        rcases hsc : _scroll_through_thumbnails fetchOf S
            ((pages pass).drop (max seen skip)) limit urls keywords mn mx with e | urls2
        · rw [hsc] at h; simp at h
        · rw [hsc] at h
          exact ih _ urls2 _ _ r
            (scroll_nodup fetchOf S limit keywords mn mx _ urls urls2 hnd hsc) h
    · rw [if_neg hc] at h
      simp only [Except.ok.injEq, Option.some.injEq] at h
      subst h
      exact hnd

/-- C1 counterexample: a page behaviour under which the harvest loop ends in a
third way — neither by reaching `limit` nor by a pass with zero new
placeholders, but by an exception: with a minimum resolution supplied, the
first thumbnail's candidate passes the earlier checks and its dimension fetch
raises, and the error propagates out of `_gather_urls` without a set being
returned. -/
theorem claim1_counterexample :
    _gather_urls fetchErr ∅ (fun _ => [Thumb.image cuWild]) 3 5 0 []
      (some (1, 1)) none = .error () := rfl

/-- C1 (amended): for every page behaviour, whenever the harvest loop returns
a set it holds at most `limit` ImageUrls (first conjunct), and once a pass
observes zero new placeholders (the current placeholder count does not exceed
the count already seen) the loop performs no further pass: its result no
longer depends on any additional fuel beyond finishing the current pass
(second conjunct).  Reaching `limit` and observing no new placeholders are the
only ways the loop ends normally; it can also end by an error raised during a
pass propagating to the caller. -/
theorem claim1_theorem (fetchOf : ImageUrl → Fetch) (S : Finset ImageUrl)
    (pages : Nat → List Thumb) (limit skip : Nat) (keywords : List String)
    (mn mx : Option (Nat × Nat)) :
    (∀ (fuel : Nat) (r : List ImageUrl),
        _gather_urls fetchOf S pages fuel limit skip keywords mn mx = .ok (some r) →
        r.length ≤ limit) ∧
    (∀ (k pass : Nat) (urls : List ImageUrl) (seen : Nat) (nr : Bool),
        (pages pass).length ≤ seen →
        gatherLoop fetchOf S pages limit skip keywords mn mx (k + 2) pass urls seen nr =
          gatherLoop fetchOf S pages limit skip keywords mn mx 2 pass urls seen nr) := by
  constructor
  · intro fuel r h
    exact loop_length_le fetchOf S pages limit skip keywords mn mx fuel 0 [] 0 true r
      (by simp) h
  · intro k pass urls seen nr hseen
    have hnr2 : decide (((pages pass).length : Int) - (seen : Int) > 0) = false := by
      apply decide_eq_false
      omega
    rw [show k + 2 = (k + 1) + 1 from rfl, show (2 : Nat) = 1 + 1 from rfl]
    simp only [gatherLoop]
    by_cases hc : urls.length < limit ∧ nr = true
    · rw [if_pos hc, if_pos hc, hnr2]
      simp
    · rw [if_neg hc, if_neg hc]

/-- Witness for C1 (amended) at a concrete input: a successful one-pass run at
`limit = 1` returns one url (first conjunct applied at fuel 3), and from a
state whose pass observes zero new placeholders (one placeholder, one already
seen) extra fuel does not change the outcome (second conjunct at `k = 1`). -/
theorem claim1_witness :
    ([cuOk] : List ImageUrl).length ≤ 1 ∧
      gatherLoop fetchOkOn ∅ (fun _ => [Thumb.image cuOk]) 1 0 [] none none
          (1 + 2) 0 [] 1 true =
        gatherLoop fetchOkOn ∅ (fun _ => [Thumb.image cuOk]) 1 0 [] none none
          2 0 [] 1 true :=
  ⟨(claim1_theorem fetchOkOn ∅ (fun _ => [Thumb.image cuOk]) 1 0 [] none none).1
      3 [cuOk] rfl,
    (claim1_theorem fetchOkOn ∅ (fun _ => [Thumb.image cuOk]) 1 0 [] none none).2
      1 0 [] 1 true (by decide)⟩

/-- C3: within one session (a run of the harvest loop from any state whose
accumulated list has no duplicates), the final accumulated result has no
duplicates — a candidate equal to one already accepted is never added a second
time, because the accumulator has Python-set add semantics — and a candidate
equal to a member of the previously-known store `S` is never newly added: if
it occurs in the result it was already in the accumulator, since the validator
rejects members of `S`. -/
theorem claim3_theorem (fetchOf : ImageUrl → Fetch) (S : Finset ImageUrl)
    (pages : Nat → List Thumb) (limit skip : Nat) (keywords : List String)
    (mn mx : Option (Nat × Nat)) (fuel pass : Nat) (urls : List ImageUrl)
    (seen : Nat) (nr : Bool) (r : List ImageUrl)
    (hnd : urls.Nodup)
    (h : gatherLoop fetchOf S pages limit skip keywords mn mx fuel pass urls seen nr
          = .ok (some r)) :
    r.Nodup ∧ ∀ u ∈ S, u ∈ r → u ∈ urls := by
  refine ⟨loop_nodup fetchOf S pages limit skip keywords mn mx fuel pass urls seen nr r
      hnd h, ?_⟩
  intro u hS hr
  rcases loop_mem_of_ok fetchOf S pages limit skip keywords mn mx fuel pass urls seen nr r
      h u hr with h' | h'
  · exact h'
  · exact absurd hS (validate_true_not_mem h')

/-- Witness for C3 at a concrete input: a session against a store holding
`cuKnown`, whose page re-offers `cuKnown` and offers the new `cuWild`; the
result `[cuWild]` has no duplicates and the known entry was not re-added. -/
theorem claim3_witness :
    ([cuWild] : List ImageUrl).Nodup ∧
      ∀ u ∈ ({cuKnown} : Finset ImageUrl), u ∈ [cuWild] → u ∈ ([] : List ImageUrl) :=
  claim3_theorem fetchErr {cuKnown}
    (fun _ => [Thumb.image cuKnown, Thumb.image cuWild]) 5 0 [] none none
    3 0 [] 0 true [cuWild] List.nodup_nil rfl

/-- C10: the set returned to the caller by `get_image_urls` is disjoint from
the store set loaded at construction: every returned url was newly discovered
in this session, the validator having rejected any candidate already in the
loaded set (the file saved at session end nevertheless contains the merged
union). -/
theorem claim10_theorem (env : PageEnv) (S : Finset ImageUrl) (fuel limit skip : Nat)
    (keywords : List String) (mn mx : Option (Nat × Nat)) (urls : List ImageUrl)
    (h : (get_image_urls env S fuel limit skip keywords mn mx).1 = .ok (some urls)) :
    ∀ u ∈ urls, u ∉ S := by
  obtain ⟨hg, -⟩ := get_fst_ok h
  intro u hu
  rcases loop_mem_of_ok env.fetchOf S env.pages limit skip keywords mn mx fuel 0 [] 0
      true urls hg u hu with h' | h'
  · simp at h'
  · exact validate_true_not_mem h'
/-- Witness for C10 at a concrete input: against the loaded store `{cuKnown}`
the session returns exactly `[cuWild]`, disjoint from the store. -/
theorem claim10_witness :
    cuWild ∉ ({cuKnown} : Finset ImageUrl) :=
  claim10_theorem envKnownWild {cuKnown} 3 5 0 [] none none [cuWild] rfl cuWild
    (by simp)

theorem isEmpty_congr {l1 l2 : List Thumb} (h : l1.length = l2.length) :
    l1.isEmpty = l2.isEmpty := by
  cases l1 <;> cases l2 <;> simp_all

theorem gatherLoop_congr (fetchOf : ImageUrl → Fetch) (S : Finset ImageUrl)
    (pages pages' : Nat → List Thumb) (limit skip : Nat) (keywords : List String)
    (mn mx : Option (Nat × Nat))
    (hlen : ∀ p, (pages' p).length = (pages p).length)
    (hdrop : ∀ p, (pages' p).drop skip = (pages p).drop skip) :
    ∀ (fuel pass : Nat) (urls : List ImageUrl) (seen : Nat) (nr : Bool),
      gatherLoop fetchOf S pages' limit skip keywords mn mx fuel pass urls seen nr =
        gatherLoop fetchOf S pages limit skip keywords mn mx fuel pass urls seen nr := by
  intro fuel
  induction fuel with
  | zero => intro pass urls seen nr; rfl
  | succ n ih =>
    intro pass urls seen nr
    simp only [gatherLoop]
    by_cases hc : urls.length < limit ∧ nr = true
    · rw [if_pos hc, if_pos hc]
      have h1 : ∀ l : List Thumb,
          l.drop (max seen skip) = (l.drop skip).drop (max seen skip - skip) := by
        intro l
        rw [List.drop_drop]
        congr 1
        omega
      have hdropmax : (pages' pass).drop (max seen skip)
          = (pages pass).drop (max seen skip) := by
        rw [h1, h1, hdrop pass]
      rw [hlen pass, isEmpty_congr (hlen pass), hdropmax]
      by_cases hs : skip > 0 ∧ skip > (pages pass).length
      · rw [if_pos hs, if_pos hs]
        by_cases he : (pages pass).isEmpty
        · rw [if_pos he, if_pos he]
        · rw [if_neg he, if_neg he, ih]
      · rw [if_neg hs, if_neg hs]
        rcases hsc : _scroll_through_thumbnails fetchOf S
            ((pages pass).drop (max seen skip)) limit urls keywords mn mx with e | urls2
        · simp only [hsc]
        · simp only [hsc, ih]
    · rw [if_neg hc, if_neg hc]

/-- C2: with `skip = k` and at least `k` placeholders available from the first
pass, none of the first `k` placeholders of any pass is ever clicked or
extracted from: each pass processes only the slice of the placeholder list
starting at `max(seen_placeholder_count, skip)`, so the harvest outcome is
unchanged under arbitrary replacement of the first `k` placeholders of every
pass (only the placeholder count is ever consulted about them). -/
theorem claim2_theorem (fetchOf : ImageUrl → Fetch) (S : Finset ImageUrl)
    (pages pages' : Nat → List Thumb) (fuel limit k : Nat) (keywords : List String)
    (mn mx : Option (Nat × Nat))
    (_havail : k ≤ (pages 0).length)
    (hlen : ∀ p, (pages' p).length = (pages p).length)
    (hdrop : ∀ p, (pages' p).drop k = (pages p).drop k) :
    _gather_urls fetchOf S pages' fuel limit k keywords mn mx =
      _gather_urls fetchOf S pages fuel limit k keywords mn mx :=
  gatherLoop_congr fetchOf S pages pages' limit k keywords mn mx hlen hdrop fuel 0 [] 0
    true
/-- Witness for C2 at a concrete input: with `skip = 1` and two placeholders
available from the first pass, replacing the first placeholder (never clicked)
leaves the harvest outcome unchanged. -/
theorem claim2_witness :
    _gather_urls fetchErr ∅ pagesW2 4 5 1 [] none none =
      _gather_urls fetchErr ∅ pagesW 4 5 1 [] none none :=
  claim2_theorem fetchErr ∅ pagesW pagesW2 4 5 1 [] none none (by decide)
    (fun _ => rfl) (fun _ => rfl)
